import Mathlib

/-!
# Verification of the tallydash query-safety gate

Shallow embedding of `src/tallydash/utils/security.py` (functions
`validate_sql_query`, `_validate_tally_query_structure`, `sanitize_input`,
`validate_date_input`, `validate_amount_input`, class `SecurityValidator`).

Python strings are modelled as `List Char` (wrapped in `String` at the API
boundary).  The regular-expression checks of the source are compiled, by
hand, into executable character-list scanners; each scanner's doc comment
names the regex it implements.  Character classes (`\s`, `\w`, `str.upper`,
`str.strip`) are modelled on their ASCII fragment, which is the fragment the
repository's query dialect uses.  Logging calls of the source are dropped
(they do not affect return values).
-/

namespace TallyDash

/-- Python whitespace class `\s` / the set stripped by `str.strip()`
(ASCII fragment): space, tab, newline, carriage return, vertical tab,
form feed. -/
def isPySpace (c : Char) : Bool :=
  c == ' ' || c == '\t' || c == '\n' || c == '\r' ||
  c == Char.ofNat 11 || c == Char.ofNat 12

/-- Python word-character class `\w` (ASCII fragment): letters, digits,
underscore. -/
def isWordChar (c : Char) : Bool := c.isAlpha || c.isDigit || c == '_'

/-- Python `str.upper()` (ASCII letters). -/
def pyUpper (l : List Char) : List Char := l.map Char.toUpper

/-- Python `str.strip()`: drop whitespace from both ends. -/
def pyStrip (l : List Char) : List Char :=
  ((l.dropWhile isPySpace).reverse.dropWhile isPySpace).reverse

/-- Character list of a string literal (used for regex/keyword literals). -/
def chars (s : String) : List Char := s.data

/-- Case-insensitive character comparison, as `re.IGNORECASE` does on
ASCII. -/
def ciEq (a b : Char) : Bool := a.toUpper == b.toUpper

/-- Does the input start with pattern `p`, compared case-insensitively? -/
def startsWithCI : List Char → List Char → Bool
  | [], _ => true
  | _ :: _, [] => false
  | p :: ps, c :: cs => ciEq p c && startsWithCI ps cs

/-- `re.search` of a literal pattern `p` under `re.IGNORECASE`: does `p`
occur (case-insensitively) anywhere in the input? -/
def containsCI (p : List Char) : List Char → Bool
  | [] => startsWithCI p []
  | c :: r => startsWithCI p (c :: r) || containsCI p r

/-- Match `.*W` at the current position: some later point of the input,
reachable without crossing a newline (`.` does not match `\n`), starts
with `W` (case-insensitively). -/
def gapThenCI (w : List Char) : List Char → Bool
  | [] => startsWithCI w []
  | c :: r => startsWithCI w (c :: r) || (c != '\n' && gapThenCI w r)

/-- Match `X.*Y` at the current position (case-insensitive). -/
def seqHereCI (x y : List Char) (l : List Char) : Bool :=
  startsWithCI x l && gapThenCI y (l.drop x.length)

/-- `re.search` of `X.*Y` under `re.IGNORECASE`. -/
def searchSeqCI (x y : List Char) : List Char → Bool
  | [] => seqHereCI x y []
  | c :: r => seqHereCI x y (c :: r) || searchSeqCI x y r

/-- Is the optional preceding character a non-word character (or the start
of the string)?  Used for the word-boundary `\b`. -/
def notWordOpt : Option Char → Bool
  | none => true
  | some c => !isWordChar c

/-- Match `\bW\b` at the current position, where `p` is the character
immediately before this position (`none` at the start of the string) and
`W` consists of word characters. -/
def bwordHereCI (w : List Char) (p : Option Char) (l : List Char) : Bool :=
  notWordOpt p && startsWithCI w l && notWordOpt (l.drop w.length).head?

/-- Match `.*\bW\b` at the current position (`p` = preceding character). -/
def gapBWordCI (w : List Char) : Option Char → List Char → Bool
  | p, [] => bwordHereCI w p []
  | p, c :: r => bwordHereCI w p (c :: r) || (c != '\n' && gapBWordCI w (some c) r)

/-- Match `.*=.*\bW\b` at the current position. -/
def gapEqGapBWordCI (w : List Char) : List Char → Bool
  | [] => false
  | c :: r => (c == '=' && gapBWordCI w (some '=') r) ||
              (c != '\n' && gapEqGapBWordCI w r)

/-- Match `\bW\b.*=.*\bW\b` at the current position. -/
def bwordEqBwordHereCI (w : List Char) (p : Option Char) (l : List Char) : Bool :=
  bwordHereCI w p l && gapEqGapBWordCI w (l.drop w.length)

/-- `re.search` of `\bW\b.*=.*\bW\b` (case-insensitive). -/
def searchBwordEqBwordCI (w : List Char) : Option Char → List Char → Bool
  | p, [] => bwordEqBwordHereCI w p []
  | p, c :: r => bwordEqBwordHereCI w p (c :: r) || searchBwordEqBwordCI w (some c) r

/-- Match `1\s*=\s*1` at the current position.  The maximal-skip of
whitespace is equivalent to the regex: every character skipped by `\s*`
is whitespace and hence not the required `=` (resp. `1`). -/
def oneEqOneHere : List Char → Bool
  | '1' :: r =>
    (match r.dropWhile isPySpace with
     | '=' :: r2 =>
       (match r2.dropWhile isPySpace with
        | '1' :: _ => true
        | _ => false)
     | _ => false)
  | _ => false

/-- `re.search` of `1\s*=\s*1`. -/
def searchOneEqOne : List Char → Bool
  | [] => false
  | c :: r => oneEqOneHere (c :: r) || searchOneEqOne r

/-! ## The deny-list and injection patterns of `security.py` -/

/-- `DANGEROUS_KEYWORDS` (security.py lines 8-13), verbatim. -/
def DANGEROUS_KEYWORDS : List String :=
  ["DROP", "DELETE", "INSERT", "UPDATE", "ALTER", "CREATE", "TRUNCATE",
   "EXEC", "EXECUTE", "SHUTDOWN", "GRANT", "REVOKE", "DENY",
   "SP_", "XP_", "OPENROWSET", "OPENDATASOURCE", "OPENQUERY",
   "--", "/*", "*/", "UNION", "HAVING"]

/-- `INJECTION_PATTERNS[0]`:
`('|"|BACKTICK;|--|/\*|\*/|union|select.*from|insert.*into|delete.*from|update.*set|drop.*table)`
searched with `re.IGNORECASE`. -/
def injPattern1 (l : List Char) : Bool :=
  containsCI [Char.ofNat 39] l ||
  containsCI [Char.ofNat 34] l ||
  containsCI [Char.ofNat 96, ';'] l ||
  containsCI (chars "--") l ||
  containsCI (chars "/*") l ||
  containsCI (chars "*/") l ||
  containsCI (chars "union") l ||
  searchSeqCI (chars "select") (chars "from") l ||
  searchSeqCI (chars "insert") (chars "into") l ||
  searchSeqCI (chars "delete") (chars "from") l ||
  searchSeqCI (chars "update") (chars "set") l ||
  searchSeqCI (chars "drop") (chars "table") l

/-- `INJECTION_PATTERNS[1]`: `(exec|execute|sp_|xp_)`, `re.IGNORECASE`. -/
def injPattern2 (l : List Char) : Bool :=
  containsCI (chars "exec") l || containsCI (chars "execute") l ||
  containsCI (chars "sp_") l || containsCI (chars "xp_") l

/-- `INJECTION_PATTERNS[2]`: `(script|javascript|vbscript)`, `re.IGNORECASE`. -/
def injPattern3 (l : List Char) : Bool :=
  containsCI (chars "script") l || containsCI (chars "javascript") l ||
  containsCI (chars "vbscript") l

/-- `INJECTION_PATTERNS[3]`: `(\bor\b.*=.*\bor\b|\band\b.*=.*\band\b)`,
`re.IGNORECASE`. -/
def injPattern4 (l : List Char) : Bool :=
  searchBwordEqBwordCI (chars "or") none l ||
  searchBwordEqBwordCI (chars "and") none l

/-- `INJECTION_PATTERNS[4]`: `(1=1|1\s*=\s*1|true|false)`, `re.IGNORECASE`. -/
def injPattern5 (l : List Char) : Bool :=
  containsCI (chars "1=1") l || searchOneEqOne l ||
  containsCI (chars "true") l || containsCI (chars "false") l

/-- `INJECTION_PATTERNS` (security.py lines 16-22), one matcher per regex. -/
def INJECTION_PATTERNS : List (List Char → Bool) :=
  [injPattern1, injPattern2, injPattern3, injPattern4, injPattern5]

/-! ## `_validate_tally_query_structure` -/

/-- `valid_tables` (security.py lines 77-80), verbatim. -/
def VALID_TABLES : List String :=
  ["Company", "Ledger", "Voucher", "VoucherItem", "StockItem",
   "StockGroup", "Group", "Currency", "GoDown", "Unit"]

/-- Attempt to match `FROM\s+(\w+)` (`re.IGNORECASE`) at the current
position, returning the capture group `\w+`.  Greedy `\s+`/`\w+` are
deterministic here: a shorter whitespace run would leave a whitespace
character where a word character is required, and a shorter word run
would end the match early without consequence for the captured word. -/
def fromTableAt (l : List Char) : Option (List Char) :=
  if startsWithCI (chars "from") l then
    let r := l.drop 4
    let sp := r.takeWhile isPySpace
    let w := (r.dropWhile isPySpace).takeWhile isWordChar
    if sp.isEmpty || w.isEmpty then none else some w
  else none

/-- `re.search(r'FROM\s+(\w+)', query, re.IGNORECASE)`: leftmost match,
returning capture group 1. -/
def findFromTable : List Char → Option (List Char)
  | [] => none
  | c :: r =>
    match fromTableAt (c :: r) with
    | some w => some w
    | none => findFromTable r

/-- Does a field sigil `\$\w+` start at this position (`$` followed by a
word character)? -/
def sigilHere (c : Char) (r : List Char) : Bool :=
  c == '$' &&
  (match r with
   | c2 :: _ => isWordChar c2
   | [] => false)

/-- `re.findall(r'\$\w+', query)` is non-empty: some position starts a
field-sigil token. -/
def hasTallyField : List Char → Bool
  | [] => false
  | c :: r => sigilHere c r || hasTallyField r

/-- `_validate_tally_query_structure` (security.py lines 66-96): if a
`FROM` clause is found its table must be in `valid_tables` (case-sensitive
`in`), and the query must contain at least one `$field` token. -/
def _validate_tally_query_structure (l : List Char) : Bool :=
  (match findFromTable l with
   | some t => decide (String.mk t ∈ VALID_TABLES)
   | none => true) &&
  hasTallyField l

/-! ## `validate_sql_query` -/

/-- Body of `validate_sql_query` (security.py lines 25-63) for a non-empty
string: the four rejection layers in source order — dangerous-keyword scan
over `query.upper().strip()`, injection-regex scan over the raw query,
`SELECT`-prefix check, Tally structure check. -/
def validateCore (l : List Char) : Bool :=
  !(DANGEROUS_KEYWORDS.any fun kw => decide (kw.data <:+: pyStrip (pyUpper l))) &&
  !(INJECTION_PATTERNS.any fun p => p l) &&
  decide (chars "SELECT" <+: pyStrip (pyUpper l)) &&
  _validate_tally_query_structure l

/-- `validate_sql_query` on a string argument: `if not query: return False`
then the four layers. -/
def validate_sql_query (q : String) : Bool :=
  if q.data.isEmpty then false else validateCore q.data

/-- A Python value as it can arrive at `validate_sql_query`'s dynamically
typed parameter. -/
inductive PyVal where
  | pyNone : PyVal
  | pyStr : String → PyVal
  | pyInt : Int → PyVal
  | pyList : Nat → PyVal
  | pyDict : Nat → PyVal
deriving DecidableEq

/-- Python truthiness of a `PyVal` (`bool(v)`). -/
def pyTruthy : PyVal → Bool
  | .pyNone => false
  | .pyStr s => !s.data.isEmpty
  | .pyInt n => n != 0
  | .pyList n => n != 0
  | .pyDict n => n != 0

/-- `isinstance(v, str)`. -/
def isinstanceStr : PyVal → Bool
  | .pyStr _ => true
  | _ => false

/-- `validate_sql_query` with its dynamically typed guard
(`if not query or not isinstance(query, str): return False`); non-strings
are rejected without being inspected or coerced. -/
def validate_sql_query_py (v : PyVal) : Bool :=
  if !pyTruthy v || !isinstanceStr v then false
  else
    match v with
    | .pyStr s => validateCore s.data
    | _ => false

/-! ## `sanitize_input` -/

/-- The character class `[<>"';\\]` removed by `sanitize_input`
(apostrophe = `Char.ofNat 39`, double quote = `Char.ofNat 34`). -/
def DANGER_CHARS : List Char :=
  ['<', '>', Char.ofNat 34, Char.ofNat 39, ';', '\\']

/-- `re.sub(r"[<>\"';\\]", "", s)`: delete the dangerous characters. -/
def removeDanger (l : List Char) : List Char :=
  l.filter fun c => !(DANGER_CHARS.contains c)

/-- Worker for `collapseWs`; the flag records whether the previous kept
character position was inside a whitespace run. -/
def collapseWsAux : Bool → List Char → List Char
  | _, [] => []
  | inRun, c :: r =>
    if isPySpace c then
      if inRun then collapseWsAux true r
      else ' ' :: collapseWsAux true r
    else c :: collapseWsAux false r

/-- `re.sub(r'\s+', ' ', s)`: replace each maximal whitespace run by a
single space. -/
def collapseWs (l : List Char) : List Char := collapseWsAux false l

/-- `sanitize_input` (security.py lines 99-122): empty/falsy input yields
`""`; otherwise truncate to `max_length`, delete dangerous characters,
collapse whitespace runs, strip. -/
def sanitize_input (s : String) (max_length : Nat := 255) : String :=
  if s.data.isEmpty then ""
  else String.mk (pyStrip (collapseWs (removeDanger (s.data.take max_length))))

/-! ## `validate_date_input` -/

/-- Consume exactly `n` decimal digits (regex `\d{n}`), returning the
rest of the input on success. -/
def matchDigits : Nat → List Char → Option (List Char)
  | 0, l => some l
  | _ + 1, [] => none
  | n + 1, c :: r => if c.isDigit then matchDigits n r else none

/-- Python `re` end anchor `$` (no MULTILINE): matches at the very end or
just before a trailing newline. -/
def matchEnd (l : List Char) : Bool := l == [] || l == ['\n']

/-- `re.match` of `^\d{n1}SEP\d{n2}SEP\d{n3}$` — the shape shared by the
three date patterns of `validate_date_input`. -/
def matchDateShape (n1 : Nat) (sep : Char) (n2 n3 : Nat) (l : List Char) : Bool :=
  match matchDigits n1 l with
  | some (c :: r) =>
    c == sep &&
    (match matchDigits n2 r with
     | some (c2 :: r2) =>
       c2 == sep &&
       (match matchDigits n3 r2 with
        | some r3 => matchEnd r3
        | none => false)
     | _ => false)
  | _ => false

/-- `validate_date_input` (security.py lines 125-145): empty input is
allowed; otherwise the input must match `^\d{4}-\d{2}-\d{2}$`,
`^\d{2}/\d{2}/\d{4}$` or `^\d{2}-\d{2}-\d{4}$`. -/
def validate_date_input (s : String) : Bool :=
  if s.data.isEmpty then true
  else
    matchDateShape 4 '-' 2 2 s.data ||
    matchDateShape 2 '/' 2 4 s.data ||
    matchDateShape 2 '-' 2 4 s.data

/-! ## `validate_amount_input` -/

/-- Match `(\.\d{2})?$` at the current position.  Taking the optional
group when a `.` is present is forced: skipping it leaves the `.` for the
end anchor, which fails. -/
def amountDecimalTail : List Char → Bool
  | '.' :: a :: b :: r => a.isDigit && b.isDigit && matchEnd r
  | l => matchEnd l

/-- Match `(,\d{3})*(\.\d{2})?$` at the current position.  The star is
deterministic: stopping on a `,\d{3}` group always fails the tail, so
greedy consumption is equivalent to the regex. -/
def amountGroupsTail : List Char → Bool
  | ',' :: a :: b :: c :: r =>
    if a.isDigit && b.isDigit && c.isDigit then amountGroupsTail r
    else amountDecimalTail (',' :: a :: b :: c :: r)
  | l => amountDecimalTail l

/-- `re.match` of `^\d{1,3}(,\d{3})*(\.\d{2})?$`: the leading digit run
must have length 1-3 (a longer run leaves a digit that no later regex
element can consume). -/
def amountBranchGrouped (l : List Char) : Bool :=
  let d := l.takeWhile Char.isDigit
  decide (1 ≤ d.length) && decide (d.length ≤ 3) &&
  amountGroupsTail (l.dropWhile Char.isDigit)

/-- `re.match` of `^\d+(\.\d{2})?$`. -/
def amountBranchPlain (l : List Char) : Bool :=
  let d := l.takeWhile Char.isDigit
  decide (1 ≤ d.length) && amountDecimalTail (l.dropWhile Char.isDigit)

/-- `validate_amount_input` (security.py lines 148-163): empty input is
allowed; otherwise `re.match` of
`^\d{1,3}(,\d{3})*(\.\d{2})?$|^\d+(\.\d{2})?$`. -/
def validate_amount_input (s : String) : Bool :=
  if s.data.isEmpty then true
  else amountBranchGrouped s.data || amountBranchPlain s.data

/-! ## class `SecurityValidator` -/

/-- `self.allowed_functions` as set in `SecurityValidator.__init__`. -/
def ALLOWED_FUNCTIONS : List String :=
  ["SUM", "COUNT", "AVG", "MAX", "MIN", "UPPER", "LOWER",
   "LEN", "SUBSTRING", "CAST", "CONVERT", "YEAR", "MONTH", "DAY"]

/-- The state of `SecurityValidator` instances (security.py lines 204-212). -/
structure SecurityValidator where
  strict_mode : Bool
  allowed_functions : List String
deriving DecidableEq

/-- `SecurityValidator.__init__(strict_mode)`. -/
def SecurityValidator.init (strict_mode : Bool := true) : SecurityValidator :=
  { strict_mode := strict_mode, allowed_functions := ALLOWED_FUNCTIONS }

/-- Scanner state for `re.findall(r'(\w+)\s*\(', query)`: outside any
candidate, inside a word run, or in the whitespace after a word run. -/
inductive FuncScanState where
  | outside : FuncScanState
  | inWord (w : List Char) : FuncScanState
  | afterWord (w : List Char) : FuncScanState

/-- Worker for `findFuncs`: a left-to-right scan equivalent to the
leftmost, non-overlapping matches of `(\w+)\s*\(` (greedy `\w+` and `\s*`
are forced, and a failed candidate can only be re-entered at a shorter
word run with the same failing continuation). -/
def findFuncsAux : FuncScanState → List Char → List (List Char)
  | _, [] => []
  | .outside, c :: r =>
    if isWordChar c then findFuncsAux (.inWord [c]) r
    else findFuncsAux .outside r
  | .inWord w, c :: r =>
    if isWordChar c then findFuncsAux (.inWord (w ++ [c])) r
    else if c == '(' then w :: findFuncsAux .outside r
    else if isPySpace c then findFuncsAux (.afterWord w) r
    else findFuncsAux .outside r
  | .afterWord w, c :: r =>
    if c == '(' then w :: findFuncsAux .outside r
    else if isPySpace c then findFuncsAux (.afterWord w) r
    else if isWordChar c then findFuncsAux (.inWord [c]) r
    else findFuncsAux .outside r

/-- `re.findall(r'(\w+)\s*\(', query, re.IGNORECASE)`: all function-call
names (capture group 1 of each match). -/
def findFuncs (l : List Char) : List (List Char) := findFuncsAux .outside l

/-- `SecurityValidator._check_function_whitelist`: every extracted
function name, upper-cased, must be in `allowed_functions`. -/
def SecurityValidator.checkFunctionWhitelist (v : SecurityValidator) (q : String) : Bool :=
  (findFuncs q.data).all fun f => decide (String.mk (pyUpper f) ∈ v.allowed_functions)

/-- Remainder of the input after the first case-insensitive occurrence of
`p`, if any. -/
def afterFirstCI (p : List Char) : List Char → Option (List Char)
  | [] => if startsWithCI p [] then some [] else none
  | c :: r =>
    if startsWithCI p (c :: r) then some (List.drop p.length (c :: r))
    else afterFirstCI p r

/-- Remainder of the input after the last `)` in it, if any. -/
def afterLastParen : List Char → Option (List Char)
  | [] => none
  | c :: r =>
    match afterLastParen r with
    | some rest => some rest
    | none => if c == ')' then some r else none

/-- Match `.*SELECT.*\)` (`re.IGNORECASE`, `.` not crossing newlines)
immediately after an opening parenthesis, returning the rest of the input
after the greedy match: both `.*` are greedy, so the match runs to the
last `)` of the newline-free segment that lies at or after the end of its
first `SELECT`. -/
def subqTail (r : List Char) : Option (List Char) :=
  let seg := r.takeWhile fun c => c != '\n'
  let rest0 := r.dropWhile fun c => c != '\n'
  match afterFirstCI (chars "select") seg with
  | none => none
  | some m =>
    match afterLastParen m with
    | none => none
    | some mrest => some (mrest ++ rest0)

/-- Worker for `countSubqueries` with a step-count fuel.  Every step
consumes at least the head character while the fuel drops by exactly one,
so fuel `l.length` can never run out before the input does. -/
def countSubqueriesAux : Nat → List Char → Nat
  | 0, _ => 0
  | _, [] => 0
  | fuel + 1, c :: r =>
    if c == '(' then
      match subqTail r with
      | some rest => 1 + countSubqueriesAux fuel rest
      | none => countSubqueriesAux fuel r
    else countSubqueriesAux fuel r

/-- `len(re.findall(r'\(.*SELECT.*\)', query, re.IGNORECASE))`: count of
non-overlapping matches, scanning left to right. -/
def countSubqueries (l : List Char) : Nat := countSubqueriesAux l.length l

/-- `len(re.findall(r'\bJOIN\b', query, re.IGNORECASE))`: count of
word-bounded `JOIN` occurrences (`p` = preceding character); after a
match the scan resumes past its four characters. -/
def countJoins : Option Char → List Char → Nat
  | _, [] => 0
  | p, c :: r =>
    if bwordHereCI (chars "join") p (c :: r) then
      match r with
      | _ :: _ :: n :: rest => 1 + countJoins (some n) rest
      | _ => 1
    else countJoins (some c) r

/-- `SecurityValidator._check_complexity`: at most 2 parenthesised
subqueries, at most 3 `JOIN`s, query length at most 2000. -/
def checkComplexity (q : String) : Bool :=
  decide (countSubqueries q.data ≤ 2) &&
  decide (countJoins none q.data ≤ 3) &&
  decide (q.data.length ≤ 2000)

/-- `SecurityValidator.validate_query` (security.py lines 214-232): basic
validation first; the function allow-list and complexity checks run only
in strict mode; returns `(is_valid, error_message)`. -/
def SecurityValidator.validate_query (v : SecurityValidator) (q : String) :
    Bool × Option String :=
  if !(validate_sql_query q) then
    (false, some "Query failed basic security validation")
  else if v.strict_mode && !(v.checkFunctionWhitelist q) then
    (false, some "Query contains non-whitelisted functions")
  else if v.strict_mode && !(checkComplexity q) then
    (false, some "Query is too complex")
  else
    (true, none)

/-! ## Bridging lemmas -/

theorem length_dropWhile_le (p : Char → Bool) (l : List Char) :
    (l.dropWhile p).length ≤ l.length := by
  induction l with
  | nil => simp
  | cons c r ih =>
    by_cases h : p c
    · simp [List.dropWhile_cons, h]
      exact Nat.le_succ_of_le ih
    · simp [List.dropWhile_cons, h]

theorem pyStrip_length_le (l : List Char) : (pyStrip l).length ≤ l.length := by
  have h1 := length_dropWhile_le isPySpace l
  have h2 := length_dropWhile_le isPySpace (l.dropWhile isPySpace).reverse
  simp only [pyStrip, List.length_reverse] at *
  omega

theorem collapseWsAux_length_le (l : List Char) :
    ∀ b, (collapseWsAux b l).length ≤ l.length := by
  induction l with
  | nil => intro b; simp [collapseWsAux]
  | cons c r ih =>
    intro b
    have h1 := ih true
    have h2 := ih false
    by_cases h : isPySpace c
    · cases b <;> simp [collapseWsAux, h] <;> omega
    · simp [collapseWsAux, h]
      omega

/-- An occurrence of a non-empty, whitespace-free word survives
`dropWhile isPySpace`. -/
theorem infix_dropWhile_isPySpace (a : Char) (p2 : List Char)
    (hsp : ∀ c ∈ a :: p2, isPySpace c = false) :
    ∀ l : List Char, a :: p2 <:+: l → a :: p2 <:+: l.dropWhile isPySpace := by
  intro l
  induction l with
  | nil =>
    intro h
    rw [List.dropWhile_nil]
    exact h
  | cons c r ih =>
    intro h
    by_cases hc : isPySpace c
    · have hd : (c :: r).dropWhile isPySpace = r.dropWhile isPySpace := by
        simp [List.dropWhile_cons, hc]
      rw [hd]
      rcases List.infix_cons_iff.mp h with hpre | hinf
      · exfalso
        have hac : a = c := (List.cons_prefix_cons.mp hpre).1
        have hfa : isPySpace a = false := hsp a (List.mem_cons_self a p2)
        rw [hac] at hfa
        exact absurd hc (by simp [hfa])
      · exact ih hinf
    · have hd : (c :: r).dropWhile isPySpace = c :: r := by
        simp [List.dropWhile_cons, hc]
      rw [hd]; exact h

theorem infix_reverse_of_infix {p l : List Char} (h : p <:+: l) :
    p.reverse <:+: l.reverse := by
  obtain ⟨s, t, rfl⟩ := h
  exact ⟨t.reverse, s.reverse, by simp⟩

/-- An occurrence of a non-empty, whitespace-free word survives
`str.strip()`. -/
theorem infix_pyStrip {p : List Char} (hne : p ≠ [])
    (hsp : ∀ c ∈ p, isPySpace c = false) {l : List Char} (h : p <:+: l) :
    p <:+: pyStrip l := by
  obtain ⟨a, p2, rfl⟩ : ∃ a p2, p = a :: p2 := by
    cases p with
    | nil => exact absurd rfl hne
    | cons a p2 => exact ⟨a, p2, rfl⟩
  have h1 : a :: p2 <:+: l.dropWhile isPySpace :=
    infix_dropWhile_isPySpace a p2 hsp l h
  have h2 : (a :: p2).reverse <:+: (l.dropWhile isPySpace).reverse :=
    infix_reverse_of_infix h1
  obtain ⟨b, q2, hrev⟩ : ∃ b q2, (a :: p2).reverse = b :: q2 := by
    cases hrev2 : (a :: p2).reverse with
    | nil => exact absurd (congrArg List.length hrev2) (by simp)
    | cons b q2 => exact ⟨b, q2, rfl⟩
  have hsp2 : ∀ c ∈ b :: q2, isPySpace c = false := by
    intro c hc
    rw [← hrev] at hc
    exact hsp c (List.mem_reverse.mp hc)
  rw [hrev] at h2
  have h3 : b :: q2 <:+: ((l.dropWhile isPySpace).reverse).dropWhile isPySpace :=
    infix_dropWhile_isPySpace b q2 hsp2 _ h2
  have h4 := infix_reverse_of_infix h3
  rw [← hrev] at h4
  simpa [pyStrip] using h4

/-- `hasTallyField` is exactly the existence of a `$` immediately followed
by a word character. -/
theorem hasTallyField_iff (l : List Char) :
    hasTallyField l = true ↔
      ∃ l₁ c l₂, l = l₁ ++ '$' :: c :: l₂ ∧ isWordChar c = true := by
  induction l with
  | nil =>
    constructor
    · intro h
      simp [hasTallyField] at h
    · rintro ⟨l₁, c, l₂, h, -⟩
      have := congrArg List.length h
      simp at this
      omega
  | cons a r ih =>
    simp only [hasTallyField, Bool.or_eq_true]
    constructor
    · rintro (hs | hr)
      · cases r with
        | nil => simp [sigilHere] at hs
        | cons c2 r2 =>
          simp only [sigilHere, Bool.and_eq_true, beq_iff_eq] at hs
          obtain ⟨ha, hw⟩ := hs
          subst ha
          exact ⟨[], c2, r2, rfl, hw⟩
      · obtain ⟨l₁, c, l₂, heq, hw⟩ := ih.mp hr
        exact ⟨a :: l₁, c, l₂, by rw [heq]; rfl, hw⟩
    · rintro ⟨l₁, c, l₂, heq, hw⟩
      cases l₁ with
      | nil =>
        left
        simp only [List.nil_append, List.cons.injEq] at heq
        obtain ⟨ha, hr⟩ := heq
        subst ha
        subst hr
        simp [sigilHere, hw]
      | cons b l₁2 =>
        right
        simp only [List.cons_append, List.cons.injEq] at heq
        obtain ⟨hab, hr⟩ := heq
        exact ih.mpr ⟨l₁2, c, l₂, hr, hw⟩

/-- Shared rejection route for Claim 2: a dangerous keyword occurring
(case-insensitively) anywhere in the query trips the first layer of
`validate_sql_query`. -/
theorem validate_false_of_keyword (q : String) (kw : String)
    (hdk : kw ∈ DANGEROUS_KEYWORDS) (hocc : kw.data <:+: pyUpper q.data) :
    validate_sql_query q = false := by
  have hprops : kw.data ≠ [] ∧ ∀ c ∈ kw.data, isPySpace c = false := by
    have hall : ∀ x ∈ DANGEROUS_KEYWORDS,
        x.data ≠ [] ∧ ∀ c ∈ x.data, isPySpace c = false := by decide
    exact hall kw hdk
  have hstrip : kw.data <:+: pyStrip (pyUpper q.data) :=
    infix_pyStrip hprops.1 hprops.2 hocc
  have hany : (DANGEROUS_KEYWORDS.any
      fun kw => decide (kw.data <:+: pyStrip (pyUpper q.data))) = true :=
    List.any_eq_true.mpr ⟨kw, hdk, decide_eq_true hstrip⟩
  by_cases hemp : q.data.isEmpty
  · simp [validate_sql_query, hemp]
  · simp [validate_sql_query, hemp, validateCore, hany]

/-! ## Claim theorems -/

/-- C1: the spec and the repository's own test suite state that
`validate_sql_query("SELECT $Name FROM Ledger")` is accepted.  The code
disagrees: the `select.*from` alternative of `INJECTION_PATTERNS[0]`
matches every `SELECT ... FROM ...` query, so this query is rejected.
This theorem records the code's actual behaviour at that input, and that
the first injection regex is the layer that fires. -/
theorem claim1_select_from_query_rejected :
    validate_sql_query "SELECT $Name FROM Ledger" = false ∧
    injPattern1 (chars "SELECT $Name FROM Ledger") = true := by decide

/-- C2: any string containing one of the deny-listed keywords of the
claim (the source's `DANGEROUS_KEYWORDS` without `SHUTDOWN`) as a
case-insensitive substring — i.e. the upper-cased query contains the
keyword — is rejected by `validate_sql_query`. -/
theorem claim2_dangerous_keyword_rejects (q : String) (kw : String)
    (hkw : kw ∈ (["DROP", "DELETE", "INSERT", "UPDATE", "ALTER", "CREATE",
        "TRUNCATE", "EXEC", "EXECUTE", "GRANT", "REVOKE", "DENY",
        "SP_", "XP_", "OPENROWSET", "OPENDATASOURCE", "OPENQUERY",
        "--", "/*", "*/", "UNION", "HAVING"] : List String))
    (hocc : kw.data <:+: pyUpper q.data) :
    validate_sql_query q = false := by
  have hdk : kw ∈ DANGEROUS_KEYWORDS := by
    fin_cases hkw <;> decide
  exact validate_false_of_keyword q kw hdk hocc

theorem claim2_witness : validate_sql_query "xx DROP yy" = false :=
  claim2_dangerous_keyword_rejects "xx DROP yy" "DROP" (by decide) (by decide)

/-- C3: any string whose upper-cased, stripped form does not start with
`SELECT` is rejected by `validate_sql_query` (upper-casing and stripping
commute on the stripped characters, so this is the claim's
trim-then-uppercase condition). -/
theorem claim3_non_select_rejected (q : String)
    (h : ¬ (chars "SELECT" <+: pyStrip (pyUpper q.data))) :
    validate_sql_query q = false := by
  have hdec : decide (chars "SELECT" <+: pyStrip (pyUpper q.data)) = false :=
    decide_eq_false h
  by_cases hemp : q.data.isEmpty
  · simp [validate_sql_query, hemp]
  · simp [validate_sql_query, hemp, validateCore, hdec]

theorem claim3_witness : validate_sql_query "TRUNCATE TABLE x" = false :=
  claim3_non_select_rejected "TRUNCATE TABLE x" (by decide)

/-- C4: any string containing no field-sigil token — no `$` immediately
followed by a word character — is rejected by `validate_sql_query`. -/
theorem claim4_no_sigil_rejected (q : String)
    (h : ¬ ∃ l₁ c l₂, q.data = l₁ ++ '$' :: c :: l₂ ∧ isWordChar c = true) :
    validate_sql_query q = false := by
  have hf : hasTallyField q.data = false := by
    cases hht : hasTallyField q.data with
    | false => rfl
    | true => exact absurd ((hasTallyField_iff q.data).mp hht) h
  by_cases hemp : q.data.isEmpty
  · simp [validate_sql_query, hemp]
  · simp [validate_sql_query, hemp, validateCore,
      _validate_tally_query_structure, hf]

theorem claim4_witness : validate_sql_query "SELECT Name FROM Ledger" = false :=
  claim4_no_sigil_rejected "SELECT Name FROM Ledger" fun hex =>
    absurd ((hasTallyField_iff (chars "SELECT Name FROM Ledger")).mpr hex)
      (by decide)

/-- C5: if the `FROM\s+(\w+)` extraction finds a table name that is not in
the case-sensitive allow-list, `validate_sql_query` rejects; if no `FROM`
clause matches, the table check is skipped — the structure check then
reduces exactly to the field-token check. -/
theorem claim5_table_allowlist (q : String) :
    (∀ t : List Char, findFromTable q.data = some t →
        String.mk t ∉ VALID_TABLES → validate_sql_query q = false) ∧
    (findFromTable q.data = none →
      _validate_tally_query_structure q.data = hasTallyField q.data) := by
  constructor
  · intro t hft hmem
    have hdec : decide (String.mk t ∈ VALID_TABLES) = false := decide_eq_false hmem
    have hstruct : _validate_tally_query_structure q.data = false := by
      simp [_validate_tally_query_structure, hft, hdec]
    by_cases hemp : q.data.isEmpty
    · simp [validate_sql_query, hemp]
    · simp [validate_sql_query, hemp, validateCore, hstruct]
  · intro hft
    simp [_validate_tally_query_structure, hft]

theorem claim5_witness :
    validate_sql_query "SELECT $x FROM BadTable" = false ∧
    _validate_tally_query_structure (chars "SELECT $x") =
      hasTallyField (chars "SELECT $x") :=
  ⟨(claim5_table_allowlist "SELECT $x FROM BadTable").1
      (chars "BadTable") (by decide) (by decide),
   (claim5_table_allowlist "SELECT $x").2 (by decide)⟩

/-- C6: `None`, the empty string, and every non-string value are rejected
by `validate_sql_query`; a non-string argument is rejected by the type
guard without being inspected or coerced (the model is a total function,
so no exception is possible). -/
theorem claim6_invalid_input_rejected (v : PyVal)
    (h : isinstanceStr v = false ∨ v = .pyStr "") :
    validate_sql_query_py v = false := by
  rcases h with h | rfl
  · cases v with
    | pyStr s => simp [isinstanceStr] at h
    | pyNone => simp [validate_sql_query_py, pyTruthy, isinstanceStr]
    | pyInt n => simp [validate_sql_query_py, isinstanceStr]
    | pyList n => simp [validate_sql_query_py, isinstanceStr]
    | pyDict n => simp [validate_sql_query_py, isinstanceStr]
  · simp [validate_sql_query_py, pyTruthy]

theorem claim6_witness :
    validate_sql_query_py PyVal.pyNone = false ∧
    validate_sql_query_py (PyVal.pyStr "") = false ∧
    validate_sql_query_py (PyVal.pyInt 123) = false :=
  ⟨claim6_invalid_input_rejected PyVal.pyNone (Or.inl (by decide)),
   claim6_invalid_input_rejected (PyVal.pyStr "") (Or.inr rfl),
   claim6_invalid_input_rejected (PyVal.pyInt 123) (Or.inl (by decide))⟩

/-- C7: `sanitize_input s n` equals the pipeline take-first-`n`, delete
dangerous characters, collapse whitespace runs, strip — so its length is
at most `n` (truncation happens before stripping) — and the two concrete
examples of the claim hold. -/
theorem claim7_sanitize_truncate_then_strip :
    (∀ (s : String) (n : Nat),
        (sanitize_input s n).data =
          pyStrip (collapseWs (removeDanger (s.data.take n))) ∧
        (sanitize_input s n).length ≤ n) ∧
    sanitize_input "text with <script>" = "text with script" ∧
    sanitize_input "text   with   spaces" = "text with spaces" := by
  refine ⟨fun s n => ⟨?_, ?_⟩, by decide, by decide⟩
  · by_cases hemp : s.data.isEmpty
    · have hnil : s.data = [] := by simpa using hemp
      simp [sanitize_input, hemp, hnil, removeDanger, collapseWs,
        collapseWsAux, pyStrip]
    · simp [sanitize_input, hemp]
  · by_cases hemp : s.data.isEmpty
    · simp [sanitize_input, hemp, String.length]
    · have hgoal : (sanitize_input s n).length =
          (pyStrip (collapseWs (removeDanger (s.data.take n)))).length := by
        simp [sanitize_input, hemp, String.length]
      have h1 := pyStrip_length_le (collapseWs (removeDanger (s.data.take n)))
      have h2 : (collapseWs (removeDanger (s.data.take n))).length ≤
          (removeDanger (s.data.take n)).length :=
        collapseWsAux_length_le _ false
      have h3 : (removeDanger (s.data.take n)).length ≤ (s.data.take n).length :=
        List.length_filter_le _ _
      have h4 : (s.data.take n).length ≤ n := by simp
      omega

/-- C8: the claim (and the repository's tests) say
`validate_amount_input("1,23,456.78")` is true; the code's regex requires
three-digit comma groups and rejects it.  This theorem records the code's
actual values at the three inputs of the claim. -/
theorem claim8_amount_values :
    validate_amount_input "1,23,456.78" = false ∧
    validate_amount_input "1,0000" = false ∧
    validate_amount_input "" = true := by decide

/-- C9: the claim (and the repository's tests) say
`validate_date_input("2024-13-01")` is false; the code's shape-only regex
accepts it.  This theorem records the code's actual value. -/
theorem claim9_date_shape_only : validate_date_input "2024-13-01" = true := by
  decide

/-- C10: in non-strict mode, `SecurityValidator.validate_query` returns
exactly `validate_sql_query` as the boolean, with the fixed message when
false and `none` when true; the function allow-list and complexity checks
are never consulted. -/
theorem claim10_nonstrict_equals_basic (q : String) :
    (SecurityValidator.init false).validate_query q =
      (validate_sql_query q,
       if validate_sql_query q then none
       else some "Query failed basic security validation") := by
  cases h : validate_sql_query q <;>
    simp [SecurityValidator.validate_query, SecurityValidator.init, h]

end TallyDash
